import Mathlib

/-!
Verification of the YouTube transcript extractor worker (`src/index.js`)
against its natural-language specification.

The JavaScript source is shallowly embedded: every function below mirrors a
function (or a well-delimited part of one) of `src/index.js`.  Network I/O is
made explicit by passing the upstream response as an argument; JavaScript
numbers used for segment timings are modelled as rationals (the arithmetic the
code performs on them — integer division by 1000 — is exact in that range);
JavaScript strings are modelled as Lean strings and, where the code treats
them as byte strings (`String.fromCharCode`/`btoa`), as lists of byte values.
-/

/-! ## JavaScript string primitives -/

/-- The whitespace characters recognised by the JavaScript `\s` class, `trim`
and `parseInt` (ASCII whitespace plus NBSP and BOM; the remaining exotic
Unicode space characters, which never occur in the data handled by the
worker, are omitted from the model). -/
def jsWsChars : List Char :=
  [' ', '\t', '\n', '\r', '\x0b', '\x0c', '\u00A0', '\uFEFF']

/-- Membership in the JavaScript whitespace class. -/
def isWsJS (c : Char) : Bool :=
  jsWsChars.contains c

/-- `String.prototype.trim` on the character list: drop whitespace from both
ends. -/
def trimWs (l : List Char) : List Char :=
  ((l.dropWhile isWsJS).reverse.dropWhile isWsJS).reverse

/-- `text.replace(/\s+/g, ' ')` on the character list: every maximal run of
whitespace characters is replaced by a single space. -/
def collapseWs : List Char → List Char
  | [] => []
  | [c] => if isWsJS c then [' '] else [c]
  | a :: b :: rest =>
    if isWsJS a && isWsJS b then collapseWs (b :: rest)
    else (if isWsJS a then ' ' else a) :: collapseWs (b :: rest)

/-- `s.trim()` (src/index.js line 217). -/
def jsTrim (s : String) : String := String.mk (trimWs s.toList)

/-- `text.trim().replace(/\s+/g, ' ')` (src/index.js line 190). -/
def jsNormalizeWs (s : String) : String := String.mk (collapseWs (trimWs s.toList))

/-- Value of a non-empty decimal digit list. -/
def digitsToNat (ds : List Char) : Nat :=
  ds.foldl (fun acc c => acc * 10 + (c.toNat - '0'.toNat)) 0

/-- Longest leading digit run, `none` when there is none. -/
def parseDigits (l : List Char) : Option Nat :=
  let ds := l.takeWhile Char.isDigit
  if ds.isEmpty then none else some (digitsToNat ds)

/-- JavaScript `parseInt(s, 10)`: skip leading whitespace, an optional sign,
then the longest digit prefix; `none` models the `NaN` result. -/
def parseIntJS (s : String) : Option Int :=
  match s.toList.dropWhile isWsJS with
  | '-' :: rest => (parseDigits rest).map (fun n => -(n : Int))
  | '+' :: rest => (parseDigits rest).map (fun n => (n : Int))
  | rest => (parseDigits rest).map (fun n => (n : Int))

/-! ## Transcript response data model

The nested JSON shape walked by `getTranscript` (src/index.js lines 160-210).
Every optional-chaining step in the source corresponds to one `Option`
field.  A `SnippetRun.text` of `none` models a run whose `text` property is
absent or not a string (the `typeof run?.text === 'string'` guard). -/

structure SnippetRun where
  text : Option String
deriving DecidableEq

structure Snippet where
  runs : Option (List SnippetRun)
deriving DecidableEq

structure SegmentRenderer where
  startMs : Option String
  endMs : Option String
  snippet : Option Snippet
deriving DecidableEq

structure RawSegment where
  transcriptSegmentRenderer : Option SegmentRenderer
deriving DecidableEq

structure TranscriptSegmentListRenderer where
  initialSegments : Option (List RawSegment)
deriving DecidableEq

structure TranscriptPanelBody where
  transcriptSegmentListRenderer : Option TranscriptSegmentListRenderer
deriving DecidableEq

structure TranscriptSearchPanelRenderer where
  body : Option TranscriptPanelBody
deriving DecidableEq

structure TranscriptRendererContent where
  transcriptSearchPanelRenderer : Option TranscriptSearchPanelRenderer
deriving DecidableEq

structure TranscriptRenderer where
  content : Option TranscriptRendererContent
deriving DecidableEq

structure EngagementPanelContent where
  transcriptRenderer : Option TranscriptRenderer
deriving DecidableEq

structure UpdateEngagementPanelAction where
  targetId : Option String
  content : Option EngagementPanelContent
deriving DecidableEq

structure ResponseAction where
  updateEngagementPanelAction : Option UpdateEngagementPanelAction
deriving DecidableEq

structure ResponseData where
  actions : Option (List ResponseAction)
deriving DecidableEq

/-- The optional chain
`responseData?.actions?.[0]?.updateEngagementPanelAction?.content?.transcriptRenderer?.content?.transcriptSearchPanelRenderer?.body?.transcriptSegmentListRenderer?.initialSegments`
(src/index.js line 160). -/
def getInitialSegments (responseData : ResponseData) : Option (List RawSegment) :=
  (((((((((responseData.actions.bind (·.head?)).bind
    (·.updateEngagementPanelAction)).bind
    (·.content)).bind
    (·.transcriptRenderer)).bind
    (·.content)).bind
    (·.transcriptSearchPanelRenderer)).bind
    (·.body)).bind
    (·.transcriptSegmentListRenderer)).bind
    (·.initialSegments))

/-- `actions && actions[0]?.updateEngagementPanelAction?.targetId ===
"engagement-panel-searchable-transcript"` (src/index.js line 165); note that
a present-but-empty `actions` array is truthy in JavaScript and fails only
the `targetId` comparison. -/
def hasTranscriptPanelTarget (responseData : ResponseData) : Bool :=
  match responseData.actions with
  | none => false
  | some actions =>
    match actions.head? with
    | none => false
    | some a =>
      match a.updateEngagementPanelAction with
      | none => false
      | some u => u.targetId == some "engagement-panel-searchable-transcript"

/-! ## Transcript parsing -/

structure LangOption where
  languageCode : String
  kind : String
  language : String
deriving DecidableEq

structure TranscriptPart where
  start : Rat
  duration : Rat
  text : String
deriving DecidableEq

structure TranscriptResult where
  languageCode : String
  kind : String
  language : String
  transcript : String
  parts : List TranscriptPart
deriving DecidableEq

/-- The `TranscriptError` class (src/index.js lines 26-32): a message and an
HTTP status (default 404). -/
structure TranscriptError where
  message : String
  status : Nat := 404
deriving DecidableEq

/-- The error thrown at src/index.js line 167. -/
def noTranscriptFoundError (language : String) : TranscriptError :=
  { message := "No transcript found for this video in the specified language (\x27" ++
      language ++ "\x27)." }

/-- The error thrown at src/index.js line 171 (status 500). -/
def parseStructureError : TranscriptError :=
  { message := "Could not parse transcript data. The API structure might have changed.",
    status := 500 }

/-- The error thrown at src/index.js line 214. -/
def emptyTranscriptError (language : String) : TranscriptError :=
  { message := "Transcript was found but contained no text segments for language \x27" ++
      language ++ "\x27." }

/-- The run-concatenation loop (src/index.js lines 183-189): append each
run's `text` when it is a string. -/
def runsText (runs : List SnippetRun) : String :=
  runs.foldl (fun acc run => match run.text with | some t => acc ++ t | none => acc) ""

/-- The body of the per-segment loop of `getTranscript` (src/index.js lines
176-210): `none` when the segment is skipped (`continue`), `some part` when
it is pushed onto `parts`. -/
def extractPart (segment : RawSegment) : Option TranscriptPart :=
  match segment.transcriptSegmentRenderer with
  | none => none
  | some renderer =>
    match renderer.startMs, renderer.endMs with
    | some startMsStr, some endMsStr =>
      match renderer.snippet.bind (·.runs) with
      | none => none
      | some runs =>
        let text := runsText runs
        let text := jsNormalizeWs text
        if text = "" then none
        else
          match parseIntJS startMsStr, parseIntJS endMsStr with
          | some startMs, some endMs =>
            if endMs < startMs then none
            else some { start := (startMs : Rat) / 1000,
                        duration := ((endMs - startMs : Int) : Rat) / 1000,
                        text := text }
          | _, _ => none
    | _, _ => none

/-- The response-processing part of `getTranscript` (src/index.js lines
158-224).  The network fetch is made explicit: `responseData` is the decoded
JSON body of the upstream response (token building for the request is
modelled separately by `buildTranscriptToken`). -/
def getTranscript (langOption : LangOption) (responseData : ResponseData) :
    Except TranscriptError TranscriptResult :=
  match getInitialSegments responseData with
  | none =>
    if hasTranscriptPanelTarget responseData then
      Except.error (noTranscriptFoundError langOption.language)
    else
      Except.error parseStructureError
  | some initialSegments =>
    let parts := initialSegments.filterMap extractPart
    if parts = [] then
      Except.error (emptyTranscriptError langOption.language)
    else
      let fullTranscript := jsTrim (String.intercalate " " (parts.map (·.text)))
      Except.ok { languageCode := langOption.languageCode,
                  kind := langOption.kind,
                  language := langOption.language,
                  transcript := fullTranscript,
                  parts := parts }

/-! ## JSON values and the cache round trip

The cache stores `JSON.stringify(transcriptData)` and reads it back with
`MY_KV.get(key, 'json')` (src/index.js lines 427 and 454).  JSON values are
modelled as a tree; numbers are rationals (`JSON.stringify`/`JSON.parse` of a
finite JavaScript number is lossless, which the rational model reflects
directly). -/

inductive Json where
  | null : Json
  | bool (b : Bool) : Json
  | num (q : Rat) : Json
  | str (s : String) : Json
  | arr (elems : List Json) : Json
  | obj (fields : List (String × Json)) : Json

/-- Property lookup on a JSON object. -/
def Json.get (j : Json) (key : String) : Option Json :=
  match j with
  | .obj fields => fields.lookup key
  | _ => none

/-- `JSON.stringify` of one transcript part, up to concrete syntax: the JSON
value it denotes. -/
def encodePart (p : TranscriptPart) : Json :=
  .obj [("start", .num p.start), ("duration", .num p.duration), ("text", .str p.text)]

/-- `JSON.stringify(transcriptData)` (src/index.js line 454), up to concrete
syntax: the JSON value it denotes, with the fields in the order the object
spread at lines 219-223 produces them. -/
def encodeResult (r : TranscriptResult) : Json :=
  .obj [("languageCode", .str r.languageCode),
        ("kind", .str r.kind),
        ("language", .str r.language),
        ("transcript", .str r.transcript),
        ("parts", .arr (r.parts.map encodePart))]

/-- Reading one part back out of the parsed cache value. -/
def decodePart (j : Json) : Option TranscriptPart := do
  let .num start ← j.get "start" | none
  let .num duration ← j.get "duration" | none
  let .str text ← j.get "text" | none
  pure { start := start, duration := duration, text := text }

/-- Reading a list of parts back out of a parsed JSON array. -/
def decodeParts : List Json → Option (List TranscriptPart)
  | [] => some []
  | j :: t => do
    let p ← decodePart j
    let rest ← decodeParts t
    pure (p :: rest)

/-- Reading a `TranscriptResult` back out of the parsed cache value
(`MY_KV.get(cacheKey, 'json')`, src/index.js line 427). -/
def decodeResult (j : Json) : Option TranscriptResult := do
  let .str languageCode ← j.get "languageCode" | none
  let .str kind ← j.get "kind" | none
  let .str language ← j.get "language" | none
  let .str transcript ← j.get "transcript" | none
  let .arr partsJson ← j.get "parts" | none
  let parts ← decodeParts partsJson
  pure { languageCode := languageCode, kind := kind, language := language,
         transcript := transcript, parts := parts }

/-! ## Retry executor

`retryWithBackoff` (src/index.js lines 40-65).  The async operation is
modelled as a function from the attempt index to that attempt's outcome
(`Except.error` models a throw).  Besides the final outcome the model
records the sequence of sleeps performed (`delays`) and the number of times
the operation was invoked (`calls`), making the claimed timing behaviour a
statement about data. -/

structure RetryTrace (ε α : Type) where
  result : Except ε α
  delays : List Nat
  calls : Nat

/-- The `for (let attempt = 0; attempt <= maxRetries; attempt++)` loop,
indexed by the current attempt and the number of retries still allowed
(`remaining = maxRetries - attempt`, so `remaining = 0` is the
`attempt === maxRetries` exit). -/
def retryGo (fn : Nat → Except ε α) (initialDelay : Nat) :
    Nat → Nat → RetryTrace ε α
  | attempt, remaining =>
    match fn attempt with
    | .ok v => { result := .ok v, delays := [], calls := 1 }
    | .error e =>
      match remaining with
      | 0 => { result := .error e, delays := [], calls := 1 }
      | remaining + 1 =>
        let delay := initialDelay * 2 ^ attempt
        let rest := retryGo fn initialDelay (attempt + 1) remaining
        { result := rest.result, delays := delay :: rest.delays, calls := rest.calls + 1 }

/-- `retryWithBackoff(fn, maxRetries = 3, initialDelay = 1000)`
(src/index.js line 40). -/
def retryWithBackoff (fn : Nat → Except ε α) (maxRetries : Nat := 3)
    (initialDelay : Nat := 1000) : RetryTrace ε α :=
  retryGo fn initialDelay 0 maxRetries

/-! ## Language-name sorting

The two `languageOptions.sort(...)` calls of `getLangOptionsWithLink`
(src/index.js lines 265-271).  Both comparators are inconsistent (two names
that both satisfy the tested property compare as `-1` both ways), so the
result of `Array.prototype.sort` is engine-defined; the worker runs on V8
(Cloudflare workerd), whose sort on short arrays is a binary insertion sort,
modelled here (`bisGo`/`insertAt`/`jsArraySort`).  For the flag-style
comparators the source uses, V8's run-detection preprocessing produces the
same result, so it is omitted. -/

/-- V8's binary search for the insertion position of `pivot` in the sorted
prefix `l` (invariant `left ≤ right ≤ l.length`). -/
def bisGo (cmp : α → α → Int) (pivot : α) (l : List α) (left right : Nat) : Nat :=
  if _h : left < right then
    let mid := (left + right) / 2
    if cmp pivot (l.getD mid pivot) < 0 then bisGo cmp pivot l left mid
    else bisGo cmp pivot l (mid + 1) right
  else left
termination_by right - left
decreasing_by all_goals omega

/-- Insert `x` at index `i`. -/
def insertAt (l : List α) (i : Nat) (x : α) : List α :=
  l.take i ++ x :: l.drop i

/-- V8 binary insertion sort: insert each element into the sorted prefix at
the position the binary search returns. -/
def jsArraySort (cmp : α → α → Int) (l : List α) : List α :=
  l.foldl (fun acc x => insertAt acc (bisGo cmp x acc 0 acc.length) x) []

/-- `pat` occurs as a contiguous sublist of the argument. -/
def isInfixOfList (pat : List Char) : List Char → Bool
  | [] => pat.isPrefixOf ([] : List Char)
  | a :: t => pat.isPrefixOf (a :: t) || isInfixOfList pat t

/-- `x.includes(sub)` on strings. -/
def strIncludes (s sub : String) : Bool :=
  isInfixOfList sub.toList s.toList

/-- The two-pass sort of the extracted language names (src/index.js lines
265-271): first by `x.includes("English")`, then by `x == "English"`. -/
def sortLanguageNames (languageOptions : List String) : List String :=
  let first := "English"
  let pass1 := jsArraySort
    (fun x y => if strIncludes x first then -1 else if strIncludes y first then 1 else 0)
    languageOptions
  jsArraySort
    (fun x y => if x == first then -1 else if y == first then 1 else 0)
    pass1

/-! ## Identifier resolver

`extractVideoId` (src/index.js lines 75-93).  The two JavaScript regular
expressions are embedded as abstract syntax trees and executed by a
backtracking matcher written in continuation-passing style, reproducing the
JavaScript engine's leftmost-position, ordered-alternation, greedy/lazy
backtracking semantics; `fuel` bounds the recursion depth (amply, for the
inputs considered) so the matcher is total. -/

inductive RE where
  | eps : RE
  | ch (c : Char) : RE
  | cls (neg : Bool) (cs : List Char) : RE
  | seq (a b : RE) : RE
  | alt (a b : RE) : RE
  | opt (a : RE) : RE
  | plusGreedy (a : RE) : RE
  | starLazy (a : RE) : RE

/-- Backtracking matcher: try to match `re` against a prefix of `s`, calling
the continuation `k` on the remainder; `none` from `k` triggers
backtracking into earlier choice points. -/
def reMatch (fuel : Nat) (re : RE) (s : List Char) (k : List Char → Option α) : Option α :=
  match fuel with
  | 0 => none
  | fuel + 1 =>
    match re with
    | .eps => k s
    | .ch c =>
      match s with
      | [] => none
      | x :: rest => if x = c then k rest else none
    | .cls neg cs =>
      match s with
      | [] => none
      | x :: rest => if cs.contains x != neg then k rest else none
    | .seq a b => reMatch fuel a s (fun s2 => reMatch fuel b s2 k)
    | .alt a b =>
      match reMatch fuel a s k with
      | some r => some r
      | none => reMatch fuel b s k
    | .opt a =>
      match reMatch fuel a s k with
      | some r => some r
      | none => k s
    | .plusGreedy a =>
      reMatch fuel a s (fun s2 =>
        match reMatch fuel (.plusGreedy a) s2 k with
        | some r => some r
        | none => k s2)
    | .starLazy a =>
      match k s with
      | some r => some r
      | none => reMatch fuel a s (fun s2 => reMatch fuel (.starLazy a) s2 k)

/-- A literal string as a regex. -/
def reLit (s : String) : RE := s.toList.foldr (fun c acc => RE.seq (.ch c) acc) .eps

/-- The character class `[a-zA-Z0-9_-]`. -/
def isIdChar (c : Char) : Bool :=
  ('a' ≤ c && c ≤ 'z') || ('A' ≤ c && c ≤ 'Z') || ('0' ≤ c && c ≤ '9') ||
  c = '_' || c = '-'

/-- The test `/^[a-zA-Z0-9_-]{11}$/.test(url)` (src/index.js line 78). -/
def isVideoIdToken (s : String) : Bool :=
  s.length == 11 && s.toList.all isIdChar

/-- `[^\/\n\s]+\/\S+\/` — the "channel/video path" branch of the first
pattern (src/index.js line 83). -/
def reBranchA : RE :=
  .seq (.plusGreedy (.cls true ('/' :: '\n' :: jsWsChars)))
    (.seq (.ch '/') (.seq (.plusGreedy (.cls true jsWsChars)) (.ch '/')))

/-- `(?:v|e(?:mbed)?)\/` — the `/v/`, `/e/`, `/embed/` branch. -/
def reBranchB : RE :=
  .seq (.alt (.ch 'v') (.seq (.ch 'e') (.opt (reLit "mbed")))) (.ch '/')

/-- `\S*?[?&]v=` — the query-parameter branch. -/
def reBranchC : RE :=
  .seq (.starLazy (.cls true jsWsChars)) (.seq (.cls false ['?', '&']) (reLit "v="))

/-- Everything before the capture group in the first pattern
`(?:youtube\.com\/(?:...)|youtu\.be\/)` (src/index.js line 83). -/
def pattern1Head : RE :=
  .alt (.seq (reLit "youtube.com/") (.alt reBranchA (.alt reBranchB reBranchC)))
    (reLit "youtu.be/")

/-- Everything before the capture group in the second pattern
`(?:youtube\.com\/shorts\/)` (src/index.js line 84). -/
def pattern2Head : RE := reLit "youtube.com/shorts/"

/-- The capture group `([a-zA-Z0-9_-]{11})`: exactly eleven identifier
characters at the current position (the remaining input is unconstrained). -/
def grabVideoId (rest : List Char) : Option String :=
  let cap := rest.take 11
  if cap.length = 11 && cap.all isIdChar then some (String.mk cap) else none

/-- Scan start positions left to right, as an unanchored JavaScript match
does, returning the first capture found. -/
def reFindFrom (re : RE) : List Char → Option String
  | [] => reMatch 200 re [] grabVideoId
  | l@(_ :: t) =>
    match reMatch (8 * l.length + 200) re l grabVideoId with
    | some r => some r
    | none => reFindFrom re t

/-- `extractVideoId` (src/index.js lines 75-93): the guard `if (!url)`, the
bare-token test, then the two URL patterns in order. -/
def extractVideoId (url : String) : Option String :=
  if url = "" then none
  else if isVideoIdToken url then some url
  else
    match reFindFrom pattern1Head url.toList with
    | some m => some m
    | none => reFindFrom pattern2Head url.toList

/-! ## Binary parameter encoder

`buildTranscriptToken` (src/index.js lines 96-122).  The binary strings the
source assembles with `String.fromCharCode` are modelled as byte lists. -/

/-- Code units of an ASCII/Latin-1 string, as the byte values `btoa` sees. -/
def strBytes (s : String) : List Nat := s.toList.map (·.toNat)

def b64Alphabet : List Char :=
  "ABCDEFGHIJKLMNOPQRSTUVWXYZabcdefghijklmnopqrstuvwxyz0123456789+/".toList

def b64Char (n : Nat) : Char := b64Alphabet.getD n 'A'

/-- Standard base64 of a byte list (three bytes to four characters, `=`
padding), as `btoa` produces for values below 256. -/
def b64Encode : List Nat → List Char
  | [] => []
  | [a] => [b64Char (a / 4), b64Char (a % 4 * 16), '=', '=']
  | [a, b] => [b64Char (a / 4), b64Char (a % 4 * 16 + b / 16), b64Char (b % 16 * 4), '=']
  | a :: b :: c :: rest =>
    b64Char (a / 4) :: b64Char (a % 4 * 16 + b / 16) ::
    b64Char (b % 16 * 4 + c / 64) :: b64Char (c % 64) :: b64Encode rest

/-- `btoa` on a byte list. -/
def btoa (bytes : List Nat) : String := String.mk (b64Encode bytes)

/-- The characters `encodeURIComponent` leaves unescaped. -/
def isUnreservedURI (c : Char) : Bool :=
  ('A' ≤ c && c ≤ 'Z') || ('a' ≤ c && c ≤ 'z') || ('0' ≤ c && c ≤ '9') ||
  c = '-' || c = '_' || c = '.' || c = '!' || c = '~' || c = '*' ||
  c = '\x27' || c = '(' || c = ')'

def hexDigitUpper (n : Nat) : Char := "0123456789ABCDEF".toList.getD n '0'

def percentEncodeChar (c : Char) : List Char :=
  if isUnreservedURI c then [c]
  else ['%', hexDigitUpper (c.toNat / 16), hexDigitUpper (c.toNat % 16)]

/-- `encodeURIComponent`, restricted to one-byte characters — the only ones a
base64 string contains. -/
def encodeURIComponent (s : String) : String :=
  String.mk ((s.toList.map percentEncodeChar).flatten)

/-- The fixed panel-name literal (src/index.js line 111). -/
def panelLiteral : String := "engagement-panel-searchable-transcript-search-panel"

/-- `buildTranscriptToken(videoId, source, lang, lastFlag)` (src/index.js
lines 96-122), byte for byte. -/
def buildTranscriptToken (videoId source lang : String) (lastFlag : Bool) : String :=
  let inner : List Nat :=
    [0x0A, (strBytes source).length] ++ strBytes source ++
    [0x12, (strBytes lang).length] ++ strBytes lang ++
    [0x1A, 0x00]
  let innerB64 : String := btoa inner
  let outer : List Nat :=
    [0x0A, (strBytes videoId).length] ++ strBytes videoId ++
    [0x12, (strBytes innerB64).length] ++ strBytes innerB64 ++
    [0x18, 0x01] ++
    [0x2A, (strBytes panelLiteral).length] ++ strBytes panelLiteral ++
    [0x30, 0x01] ++
    [0x38, 0x01] ++
    [0x40, if lastFlag then 1 else 0]
  encodeURIComponent (btoa outer)

/-- A field of the ad-hoc length-delimited wire format: either a
tag/length/value triple or a tag byte followed by a single varint value
byte (the boolean-like flags). -/
inductive PBField where
  | lenDelim (tag : Nat) (value : List Nat) : PBField
  | varintByte (tag : Nat) (value : Nat) : PBField
deriving DecidableEq

def encodePBField : PBField → List Nat
  | .lenDelim tag value => tag :: value.length :: value
  | .varintByte tag value => [tag, value]

def encodePBFields (fs : List PBField) : List Nat := (fs.map encodePBField).flatten

/-- Field-level description of the inner blob: `{source, lang}` plus the
terminating empty field. -/
def innerTokenFields (source lang : String) : List PBField :=
  [.lenDelim 0x0A (strBytes source),
   .lenDelim 0x12 (strBytes lang),
   .lenDelim 0x1A []]

/-- Field-level description of the outer blob. -/
def outerTokenFields (videoId innerB64 : String) (lastFlag : Bool) : List PBField :=
  [.lenDelim 0x0A (strBytes videoId),
   .lenDelim 0x12 (strBytes innerB64),
   .varintByte 0x18 0x01,
   .lenDelim 0x2A (strBytes panelLiteral),
   .varintByte 0x30 0x01,
   .varintByte 0x38 0x01,
   .varintByte 0x40 (if lastFlag then 1 else 0)]

/-- The boolean-like flag fields (single tag byte, single value byte). -/
def isFlagField : PBField → Bool
  | .varintByte _ _ => true
  | .lenDelim _ _ => false

/-! ## HTTP endpoint handlers

The `/transcript` and `/languages` handlers (src/index.js lines 302-387 and
390-484), as pure functions of the request body, the cache-read outcome and
the outcome of the underlying compute operation.  The fire-and-forget cache
write (`c.executionCtx.waitUntil`) has no effect on the response and is not
modelled.  Besides the HTTP response each handler returns a trace of the
compute invocation it performed (`none` when the compute operation was not
called), which makes "the handler invoked the fetcher with these arguments"
a statement about data. -/

structure RequestBody where
  videoUrl : Option String
  videoId : Option String
  language : Option String
  kind : Option String
deriving DecidableEq

/-- JavaScript truthiness of an optional string (absent, `null` and `""` are
falsy). -/
def jsTruthy : Option String → Bool
  | none => false
  | some s => s != ""

/-- `a || b` on optional strings. -/
def jsOrOpt (a b : Option String) : Option String :=
  if jsTruthy a then a else b

/-- `a || dflt` with a (truthy) string default. -/
def jsOrDefault (a : Option String) (dflt : String) : String :=
  if jsTruthy a then a.getD dflt else dflt

structure HandlerResponse where
  status : Nat
  body : Json

/-- The error payload `c.json({success: false, error: message}, status)`. -/
def errObj (message : String) : Json :=
  .obj [("success", .bool false), ("error", .str message)]

/-- `error.message || 'An unexpected error occurred.'`. -/
def jsErrMessage (m : String) : String :=
  if m == "" then "An unexpected error occurred." else m

/-- Outcome of the cache read `await c.env.MY_KV.get(cacheKey, 'json')`:
a (truthy) stored value, a miss (`null`), or a thrown store/parse error. -/
inductive CacheReadOutcome where
  | hit (value : Json) : CacheReadOutcome
  | miss : CacheReadOutcome
  | failure (error : String) : CacheReadOutcome

/-- Outcome of the awaited compute operation: a value, a thrown
`TranscriptError`, or any other thrown error. -/
inductive FetchOutcome (α : Type) where
  | ok (value : α) : FetchOutcome α
  | transcriptFailure (e : TranscriptError) : FetchOutcome α
  | genericFailure (message : String) : FetchOutcome α

/-- The catch-block of both endpoints (src/index.js lines 372-386 and
469-483). -/
def catchResponse : TranscriptError ⊕ String → HandlerResponse
  | .inl e => ⟨e.status, errObj e.message⟩
  | .inr m => ⟨500, errObj (jsErrMessage m)⟩

/-- The `/transcript` handler (src/index.js lines 390-484).  `body` is the
outcome of `await c.req.json()` (`Except.error` models a thrown parse
error); `fetch` abstracts `getTranscript(videoId, langOption)`. -/
def transcriptHandler (hasKV : Bool) (body : Except String RequestBody)
    (cacheRead : CacheReadOutcome)
    (fetch : String → LangOption → FetchOutcome TranscriptResult) :
    HandlerResponse × Option (String × LangOption) :=
  if !hasKV then
    (⟨500, errObj "Server configuration error: Cache not available."⟩, none)
  else
    match body with
    | .error m => (catchResponse (.inr m), none)
    | .ok b =>
      let videoUrl := jsOrOpt b.videoUrl b.videoId
      let language := jsOrDefault b.language "en"
      let kind := jsOrDefault b.kind "asr"
      if !(jsTruthy videoUrl) then
        (⟨400, errObj "Missing videoUrl or videoId in request body."⟩, none)
      else
        match extractVideoId (videoUrl.getD "") with
        | none => (⟨400, errObj "Invalid YouTube URL or video ID provided."⟩, none)
        | some videoId =>
          match cacheRead with
          | .hit cachedData =>
            (⟨200, .obj [("success", .bool true), ("videoId", .str videoId),
                         ("language", .str language), ("data", cachedData),
                         ("cache", .str "hit")]⟩, none)
          | .miss | .failure _ =>
            let langOption : LangOption :=
              { languageCode := language, kind := kind, language := language }
            match fetch videoId langOption with
            | .ok transcriptData =>
              (⟨200, .obj [("success", .bool true), ("videoId", .str videoId),
                           ("language", .str language),
                           ("data", encodeResult transcriptData),
                           ("cache", .str "miss")]⟩, some (videoId, langOption))
            | .transcriptFailure e => (catchResponse (.inl e), some (videoId, langOption))
            | .genericFailure m => (catchResponse (.inr m), some (videoId, langOption))

/-- The `/languages` handler (src/index.js lines 302-387).  `fetchLanguages`
abstracts `getLangOptionsWithLink(videoId)`; its value is the JSON the
handler serializes into the response. -/
def languagesHandler (hasKV : Bool) (body : Except String RequestBody)
    (cacheRead : CacheReadOutcome)
    (fetchLanguages : String → FetchOutcome Json) :
    HandlerResponse × Option String :=
  if !hasKV then
    (⟨500, errObj "Server configuration error: Cache not available."⟩, none)
  else
    match body with
    | .error m => (catchResponse (.inr m), none)
    | .ok b =>
      let videoUrl := jsOrOpt b.videoUrl b.videoId
      if !(jsTruthy videoUrl) then
        (⟨400, errObj "Missing videoUrl or videoId in request body."⟩, none)
      else
        match extractVideoId (videoUrl.getD "") with
        | none => (⟨400, errObj "Invalid YouTube URL or video ID provided."⟩, none)
        | some videoId =>
          match cacheRead with
          | .hit cachedData =>
            (⟨200, .obj [("success", .bool true), ("videoId", .str videoId),
                         ("data", cachedData), ("cache", .str "hit")]⟩, none)
          | .miss | .failure _ =>
            match fetchLanguages videoId with
            | .ok languagesData =>
              (⟨200, .obj [("success", .bool true), ("videoId", .str videoId),
                           ("data", languagesData), ("cache", .str "miss")]⟩,
               some videoId)
            | .transcriptFailure e => (catchResponse (.inl e), some videoId)
            | .genericFailure m => (catchResponse (.inr m), some videoId)

/-! ## Theorems

### Whitespace normalization -/

/-- The head character is whitespace (`false` for the empty list). -/
def headWsB (l : List Char) : Bool :=
  match l.head? with
  | none => false
  | some c => isWsJS c

/-- The last character is whitespace (`false` for the empty list). -/
def lastWsB (l : List Char) : Bool :=
  match l.getLast? with
  | none => false
  | some c => isWsJS c

/-- No two adjacent whitespace characters. -/
def noAdjWs : List Char → Bool
  | a :: b :: r => !(isWsJS a && isWsJS b) && noAdjWs (b :: r)
  | _ => true

/-- Every whitespace character is a plain space. -/
def wsOnlySpaces (l : List Char) : Bool :=
  l.all (fun c => !isWsJS c || c == ' ')

/-- A whitespace-normalized character list: no whitespace at either end, no
two adjacent whitespace characters, every whitespace character a plain
space — the shape `trim()` followed by `replace(/\s+/g, ' ')` produces. -/
def normalizedChars (l : List Char) : Bool :=
  noAdjWs l && wsOnlySpaces l && !headWsB l && !lastWsB l

/-- The string is whitespace-normalized. -/
def isNormalizedStr (s : String) : Bool := normalizedChars s.toList

theorem headWsB_dropWhile (l : List Char) : headWsB (l.dropWhile isWsJS) = false := by
  induction l with
  | nil => rfl
  | cons a t ih =>
    cases h : isWsJS a with
    | true => simpa [List.dropWhile_cons, h] using ih
    | false => simp [List.dropWhile_cons, h, headWsB]

theorem lastWsB_cons (x : Char) (ys : List Char) (h : ys ≠ []) :
    lastWsB (x :: ys) = lastWsB ys := by
  cases ys with
  | nil => exact absurd rfl h
  | cons c d => simp [lastWsB, List.getLast?_cons_cons]

theorem getLast?_dropWhile (p : Char → Bool) (l : List Char) :
    l.dropWhile p = [] ∨ (l.dropWhile p).getLast? = l.getLast? := by
  induction l with
  | nil => exact Or.inl rfl
  | cons a t ih =>
    cases h : p a with
    | false => exact Or.inr (by simp [List.dropWhile_cons, h])
    | true =>
      rw [List.dropWhile_cons, if_pos (by simp [h])]
      cases t with
      | nil => exact Or.inl rfl
      | cons b r =>
        rcases ih with h1 | h1
        · exact Or.inl h1
        · exact Or.inr (by rw [h1, List.getLast?_cons_cons])

theorem headWsB_trimWs (l : List Char) : headWsB (trimWs l) = false := by
  unfold trimWs
  rcases getLast?_dropWhile isWsJS ((l.dropWhile isWsJS).reverse) with h | h
  · rw [h]; rfl
  · show headWsB ((((l.dropWhile isWsJS).reverse).dropWhile isWsJS).reverse) = false
    unfold headWsB
    rw [List.head?_reverse, h, List.getLast?_reverse]
    have := headWsB_dropWhile l
    unfold headWsB at this
    exact this

theorem lastWsB_trimWs (l : List Char) : lastWsB (trimWs l) = false := by
  unfold trimWs lastWsB
  rw [List.getLast?_reverse]
  have := headWsB_dropWhile ((l.dropWhile isWsJS).reverse)
  unfold headWsB at this
  exact this

theorem collapseWs_ne_nil (l : List Char) (h : l ≠ []) : collapseWs l ≠ [] := by
  induction l with
  | nil => exact absurd rfl h
  | cons a t ih =>
    cases t with
    | nil => cases hw : isWsJS a <;> simp [collapseWs, hw]
    | cons b r =>
      cases hab : isWsJS a && isWsJS b with
      | true => simpa [collapseWs, hab] using ih (by simp)
      | false => simp [collapseWs, hab]

theorem isWsJS_space : isWsJS ' ' = true := by decide

theorem headWsB_collapseWs (l : List Char) : headWsB (collapseWs l) = headWsB l := by
  induction l with
  | nil => rfl
  | cons a t ih =>
    cases t with
    | nil => cases hw : isWsJS a <;> simp [collapseWs, hw, headWsB, isWsJS_space]
    | cons b r =>
      cases ha : isWsJS a with
      | true =>
        cases hb : isWsJS b with
        | true =>
          rw [show collapseWs (a :: b :: r) = collapseWs (b :: r) by
            simp [collapseWs, ha, hb]]
          rw [ih]
          simp [headWsB, hb, ha]
        | false =>
          rw [show collapseWs (a :: b :: r) = ' ' :: collapseWs (b :: r) by
            simp [collapseWs, ha, hb]]
          simp [headWsB, ha]
          decide
      | false =>
        rw [show collapseWs (a :: b :: r) = a :: collapseWs (b :: r) by
          simp [collapseWs, ha]]
        simp [headWsB]

theorem lastWsB_collapseWs (l : List Char) : lastWsB (collapseWs l) = lastWsB l := by
  induction l with
  | nil => rfl
  | cons a t ih =>
    cases t with
    | nil => cases hw : isWsJS a <;> simp [collapseWs, hw, lastWsB, isWsJS_space]
    | cons b r =>
      cases hab : isWsJS a && isWsJS b with
      | true =>
        rw [show collapseWs (a :: b :: r) = collapseWs (b :: r) by
          simp [collapseWs, hab]]
        rw [ih, lastWsB_cons a (b :: r) (by simp)]
      | false =>
        rw [show collapseWs (a :: b :: r) =
            (if isWsJS a then ' ' else a) :: collapseWs (b :: r) by
          simp [collapseWs, hab]]
        rw [lastWsB_cons _ _ (collapseWs_ne_nil (b :: r) (by simp)), ih,
          lastWsB_cons a (b :: r) (by simp)]

theorem noAdjWs_collapseWs (l : List Char) : noAdjWs (collapseWs l) = true := by
  induction l with
  | nil => rfl
  | cons a t ih =>
    cases t with
    | nil => cases hw : isWsJS a <;> simp [collapseWs, hw, noAdjWs]
    | cons b r =>
      cases hab : isWsJS a && isWsJS b with
      | true =>
        rw [show collapseWs (a :: b :: r) = collapseWs (b :: r) by
          simp [collapseWs, hab]]
        exact ih
      | false =>
        rw [show collapseWs (a :: b :: r) =
            (if isWsJS a then ' ' else a) :: collapseWs (b :: r) by
          simp [collapseWs, hab]]
        obtain ⟨c, d, hcd⟩ : ∃ c d, collapseWs (b :: r) = c :: d := by
          cases h : collapseWs (b :: r) with
          | nil => exact absurd h (collapseWs_ne_nil (b :: r) (by simp))
          | cons c d => exact ⟨c, d, rfl⟩
        rw [hcd]
        have hc : isWsJS c = isWsJS b := by
          have := headWsB_collapseWs (b :: r)
          rw [hcd] at this
          simpa [headWsB] using this
        have hnoadj : noAdjWs (c :: d) = true := by rw [← hcd]; exact ih
        show ((!((isWsJS (if isWsJS a then ' ' else a)) && isWsJS c)) && noAdjWs (c :: d)) = true
        rw [hnoadj, hc]
        cases ha : isWsJS a with
        | true =>
          have hb : isWsJS b = false := by
            cases hb : isWsJS b with
            | true => rw [ha, hb] at hab; simp at hab
            | false => rfl
          simp [hb]
        | false => simp [ha]

theorem wsOnlySpaces_collapseWs (l : List Char) : wsOnlySpaces (collapseWs l) = true := by
  induction l with
  | nil => rfl
  | cons a t ih =>
    cases t with
    | nil =>
      cases hw : isWsJS a <;> simp [collapseWs, hw, wsOnlySpaces]
    | cons b r =>
      cases hab : isWsJS a && isWsJS b with
      | true =>
        rw [show collapseWs (a :: b :: r) = collapseWs (b :: r) by
          simp [collapseWs, hab]]
        exact ih
      | false =>
        rw [show collapseWs (a :: b :: r) =
            (if isWsJS a then ' ' else a) :: collapseWs (b :: r) by
          simp [collapseWs, hab]]
        have : wsOnlySpaces (collapseWs (b :: r)) = true := ih
        cases ha : isWsJS a <;> simp_all [wsOnlySpaces]

/-- The output of `trim` + whitespace collapsing is whitespace-normalized. -/
theorem isNormalizedStr_jsNormalizeWs (s : String) :
    isNormalizedStr (jsNormalizeWs s) = true := by
  show normalizedChars (String.toList (String.mk (collapseWs (trimWs s.toList)))) = true
  have htl : String.toList (String.mk (collapseWs (trimWs s.toList))) =
      collapseWs (trimWs s.toList) := rfl
  rw [htl]
  unfold normalizedChars
  rw [noAdjWs_collapseWs, wsOnlySpaces_collapseWs, headWsB_collapseWs,
    lastWsB_collapseWs, headWsB_trimWs, lastWsB_trimWs]
  rfl

/-! ### Parser characterization -/

/-- Characterization of an accepted segment: renderer and both timing fields
present, both parse, end not before start, and the emitted part carries the
second-converted times and normalized non-empty text. -/
theorem extractPart_spec (segment : RawSegment) (p : TranscriptPart)
    (h : extractPart segment = some p) :
    ∃ renderer startMsStr endMsStr runs startMs endMs,
      segment.transcriptSegmentRenderer = some renderer ∧
      renderer.startMs = some startMsStr ∧
      renderer.endMs = some endMsStr ∧
      renderer.snippet.bind (·.runs) = some runs ∧
      parseIntJS startMsStr = some startMs ∧
      parseIntJS endMsStr = some endMs ∧
      startMs ≤ endMs ∧
      p.start = (startMs : Rat) / 1000 ∧
      p.duration = ((endMs - startMs : Int) : Rat) / 1000 ∧
      p.text = jsNormalizeWs (runsText runs) ∧
      p.text ≠ "" := by
  rcases hr : segment.transcriptSegmentRenderer with _ | renderer
  · simp [extractPart, hr] at h
  rcases hs : renderer.startMs with _ | startMsStr
  · simp [extractPart, hr, hs] at h
  rcases he : renderer.endMs with _ | endMsStr
  · simp [extractPart, hr, hs, he] at h
  rcases hruns : renderer.snippet.bind (·.runs) with _ | runs
  · simp [extractPart, hr, hs, he, hruns] at h
  by_cases htext : jsNormalizeWs (runsText runs) = ""
  · simp [extractPart, hr, hs, he, hruns, htext] at h
  rcases hps : parseIntJS startMsStr with _ | startMs
  · simp [extractPart, hr, hs, he, hruns, htext, hps] at h
  rcases hpe : parseIntJS endMsStr with _ | endMs
  · simp [extractPart, hr, hs, he, hruns, htext, hps, hpe] at h
  by_cases hlt : endMs < startMs
  · simp [extractPart, hr, hs, he, hruns, htext, hps, hpe, hlt] at h
  have hp : { start := (startMs : Rat) / 1000,
              duration := ((endMs - startMs : Int) : Rat) / 1000,
              text := jsNormalizeWs (runsText runs) : TranscriptPart } = p := by
    simpa [extractPart, hr, hs, he, hruns, htext, hps, hpe, hlt] using h
  refine ⟨renderer, startMsStr, endMsStr, runs, startMs, endMs,
    rfl, hs, he, hruns, hps, hpe, Int.not_lt.mp hlt, ?_, ?_, ?_, ?_⟩
  · rw [← hp]
  · rw [← hp]
  · rw [← hp]
  · rw [← hp]; exact htext

/-- Characterization of a successful parse. -/
theorem getTranscript_ok_spec (langOption : LangOption) (responseData : ResponseData)
    (r : TranscriptResult) (h : getTranscript langOption responseData = .ok r) :
    ∃ initialSegments,
      getInitialSegments responseData = some initialSegments ∧
      r.parts = initialSegments.filterMap extractPart ∧
      r.parts ≠ [] ∧
      r.transcript = jsTrim (String.intercalate " " (r.parts.map (·.text))) ∧
      r.languageCode = langOption.languageCode ∧
      r.kind = langOption.kind ∧
      r.language = langOption.language := by
  rcases hseg : getInitialSegments responseData with _ | initialSegments
  · by_cases ht : hasTranscriptPanelTarget responseData <;>
      simp [getTranscript, hseg, ht] at h
  by_cases hnil : initialSegments.filterMap extractPart = []
  · simp [getTranscript, hseg, hnil] at h
  have hrec := h
  simp only [getTranscript, hseg, hnil, if_false, if_neg hnil] at hrec
  rw [Except.ok.injEq] at hrec
  subst hrec
  exact ⟨initialSegments, rfl, rfl, hnil, rfl, rfl, rfl, rfl⟩

/-! ### Cache round trip -/

theorem decodePart_encodePart (p : TranscriptPart) :
    decodePart (encodePart p) = some p := rfl

theorem decodeParts_map_encodePart (ps : List TranscriptPart) :
    decodeParts (ps.map encodePart) = some ps := by
  induction ps with
  | nil => rfl
  | cons p t ih => simp [decodeParts, decodePart_encodePart, ih]

/-- A serialize/deserialize round trip through the cache is the identity. -/
theorem decodeResult_encodeResult (r : TranscriptResult) :
    decodeResult (encodeResult r) = some r := by
  have h1 := decodeParts_map_encodePart r.parts
  simp [decodeResult, encodeResult, Json.get, List.lookup, h1]

/-! ### Concrete response builders used by witnesses and counterexamples -/

/-- A response whose first action carries the given target id and the given
segment list at the bottom of the nested path. -/
def mkResponse (initialSegments : Option (List RawSegment))
    (targetId : Option String) : ResponseData :=
  ⟨some [⟨some ⟨targetId, some ⟨some ⟨some ⟨some ⟨some ⟨some ⟨initialSegments⟩⟩⟩⟩⟩⟩⟩⟩]⟩

/-- A well-formed segment: 0ms to 1000ms, text `"hi"`. -/
def sampleSegment : RawSegment :=
  ⟨some ⟨some "0", some "1000", some ⟨some [⟨some "hi"⟩]⟩⟩⟩

/-- A segment with a negative start millisecond value. -/
def negStartSegment : RawSegment :=
  ⟨some ⟨some "-5", some "0", some ⟨some [⟨some "hi"⟩]⟩⟩⟩

/-- A segment with no renderer at all. -/
def bareSegment : RawSegment := { transcriptSegmentRenderer := none }

def sampleLangOption : LangOption :=
  { languageCode := "en", kind := "asr", language := "en" }

def samplePart : TranscriptPart :=
  { start := ((0 : Int) : Rat) / 1000,
    duration := ((1000 - 0 : Int) : Rat) / 1000,
    text := "hi" }

def sampleResult : TranscriptResult :=
  { languageCode := "en", kind := "asr", language := "en", transcript := "hi",
    parts := [samplePart] }

/-! ### C1 -/

/-- Claim C1: for every `TranscriptResult` produced by the transcript fetcher,
`transcript` equals the space-joined, trimmed concatenation of the parts'
texts in order, and a cache round trip (serializing to JSON and decoding
again) yields an identical result. -/
theorem C1_transcript_invariant_and_cache_roundtrip
    (langOption : LangOption) (responseData : ResponseData) (r : TranscriptResult)
    (h : getTranscript langOption responseData = .ok r) :
    r.transcript = jsTrim (String.intercalate " " (r.parts.map (·.text))) ∧
    decodeResult (encodeResult r) = some r := by
  obtain ⟨segs, -, -, -, htr, -, -, -⟩ := getTranscript_ok_spec _ _ _ h
  exact ⟨htr, decodeResult_encodeResult r⟩

/-- Witness for C1 at a concrete one-segment response. -/
theorem C1_witness :
    getTranscript sampleLangOption (mkResponse (some [sampleSegment]) none) =
      .ok sampleResult ∧
    (sampleResult.transcript =
      jsTrim (String.intercalate " " (sampleResult.parts.map (·.text))) ∧
     decodeResult (encodeResult sampleResult) = some sampleResult) :=
  ⟨rfl, C1_transcript_invariant_and_cache_roundtrip sampleLangOption
    (mkResponse (some [sampleSegment]) none) sampleResult rfl⟩

/-! ### C2 -/

/-- Claim C2: during transcript parsing, every raw segment that is missing its
renderer, missing the start or end millisecond field, has no text runs,
yields empty text after normalization, or has end before start, is skipped;
when at least one segment survives the operation succeeds with exactly the
surviving parts; and when every segment is excluded while the raw segment
list was present, the operation fails with the EmptyTranscript error. -/
theorem C2_segment_filtering_and_empty_transcript :
    (∀ segment : RawSegment,
      (segment.transcriptSegmentRenderer = none ∨
       ∃ renderer, segment.transcriptSegmentRenderer = some renderer ∧
         (renderer.startMs = none ∨
          renderer.endMs = none ∨
          renderer.snippet.bind (·.runs) = none ∨
          (∃ runs, renderer.snippet.bind (·.runs) = some runs ∧
            jsNormalizeWs (runsText runs) = "") ∨
          (∃ startMsStr endMsStr startMs endMs,
            renderer.startMs = some startMsStr ∧
            renderer.endMs = some endMsStr ∧
            parseIntJS startMsStr = some startMs ∧
            parseIntJS endMsStr = some endMs ∧
            endMs < startMs))) →
      extractPart segment = none) ∧
    (∀ (langOption : LangOption) (responseData : ResponseData) initialSegments,
      getInitialSegments responseData = some initialSegments →
      initialSegments.filterMap extractPart = [] →
      getTranscript langOption responseData =
        .error (emptyTranscriptError langOption.language)) ∧
    (∀ (langOption : LangOption) (responseData : ResponseData) initialSegments,
      getInitialSegments responseData = some initialSegments →
      initialSegments.filterMap extractPart ≠ [] →
      ∃ r, getTranscript langOption responseData = .ok r ∧
        r.parts = initialSegments.filterMap extractPart) := by
  refine ⟨?_, ?_, ?_⟩
  · intro segment h
    rcases h with hnone | ⟨renderer, hr, hbad⟩
    · simp [extractPart, hnone]
    rcases hbad with h1 | h1 | h1 | ⟨runs, hruns, htext⟩ |
      ⟨startMsStr, endMsStr, startMs, endMs, hs, he, hp1, hp2, hlt⟩
    · simp [extractPart, hr, h1]
    · cases hs : renderer.startMs <;> simp [extractPart, hr, h1, hs]
    · cases hs : renderer.startMs <;> cases he : renderer.endMs <;>
        simp [extractPart, hr, h1, hs, he]
    · cases hs : renderer.startMs <;> cases he : renderer.endMs <;>
        simp [extractPart, hr, hs, he, hruns, htext]
    · rcases hruns : renderer.snippet.bind (·.runs) with _ | runs
      · simp [extractPart, hr, hs, he, hruns]
      by_cases htext : jsNormalizeWs (runsText runs) = "" <;>
        simp [extractPart, hr, hs, he, hruns, htext, hp1, hp2, hlt]
  · intro langOption responseData initialSegments h1 h2
    simp [getTranscript, h1, h2]
  · intro langOption responseData initialSegments h1 h2
    refine ⟨{ languageCode := langOption.languageCode, kind := langOption.kind,
              language := langOption.language,
              transcript := jsTrim (String.intercalate " "
                ((initialSegments.filterMap extractPart).map (·.text))),
              parts := initialSegments.filterMap extractPart }, ?_, rfl⟩
    simp [getTranscript, h1, h2]

/-- Witness for C2: a response whose only segment has no renderer is
rejected with the EmptyTranscript error. -/
theorem C2_witness :
    getInitialSegments (mkResponse (some [bareSegment]) none) =
      some [bareSegment] ∧
    ([bareSegment] : List RawSegment).filterMap extractPart = [] ∧
    getTranscript sampleLangOption (mkResponse (some [bareSegment]) none) =
      .error (emptyTranscriptError "en") :=
  ⟨by decide, by decide,
    C2_segment_filtering_and_empty_transcript.2.1 sampleLangOption
      (mkResponse (some [bareSegment]) none) [bareSegment] (by decide) (by decide)⟩

/-! ### C6 -/

/-- Claim C6, counterexample: the parser accepts a segment whose `startMs` is
the string `"-5"` (with `endMs` `"0"`), emitting a part with
`start = -5/1000 < 0`; the code checks `endMs < startMs` and non-empty text
but never that the start is non-negative, so the claimed invariant
`start ≥ 0` fails on this input. -/
theorem C6_counterexample :
    getTranscript sampleLangOption (mkResponse (some [negStartSegment]) none) =
      .ok { languageCode := "en", kind := "asr", language := "en",
            transcript := "hi",
            parts := [{ start := ((-5 : Int) : Rat) / 1000,
                        duration := ((0 - (-5) : Int) : Rat) / 1000,
                        text := "hi" }] } ∧
    ((-5 : Int) : Rat) / 1000 < 0 :=
  ⟨rfl, by norm_num⟩

/-- Claim C6, amended: every part emitted by the transcript parser has
non-negative duration (end not before start) and non-empty
whitespace-normalized text; its start is the parsed start milliseconds
divided by 1000 and is non-negative provided that parsed value is
non-negative (the code does not enforce the latter, as the counterexample
shows). -/
theorem C6_amended_segment_invariants :
    (∀ (langOption : LangOption) (responseData : ResponseData) r,
      getTranscript langOption responseData = .ok r →
      ∀ p ∈ r.parts, 0 ≤ p.duration ∧ p.text ≠ "" ∧ isNormalizedStr p.text = true) ∧
    (∀ (segment : RawSegment) p renderer startMsStr startMs,
      extractPart segment = some p →
      segment.transcriptSegmentRenderer = some renderer →
      renderer.startMs = some startMsStr →
      parseIntJS startMsStr = some startMs →
      p.start = (startMs : Rat) / 1000 ∧ (0 ≤ startMs → 0 ≤ p.start)) ∧
    (∀ (segment : RawSegment) p renderer startMsStr endMsStr startMs endMs,
      extractPart segment = some p →
      segment.transcriptSegmentRenderer = some renderer →
      renderer.startMs = some startMsStr →
      renderer.endMs = some endMsStr →
      parseIntJS startMsStr = some startMs →
      parseIntJS endMsStr = some endMs →
      p.duration = ((endMs - startMs : Int) : Rat) / 1000 ∧ startMs ≤ endMs) := by
  have hdur : ∀ (segment : RawSegment) p, extractPart segment = some p →
      0 ≤ p.duration ∧ p.text ≠ "" ∧ isNormalizedStr p.text = true := by
    intro segment p h
    obtain ⟨renderer, startMsStr, endMsStr, runs, startMs, endMs,
      -, -, -, -, -, -, hle, -, hdur, htext, hne⟩ := extractPart_spec segment p h
    refine ⟨?_, hne, ?_⟩
    · rw [hdur]
      apply div_nonneg _ (by norm_num)
      exact_mod_cast Int.sub_nonneg.mpr hle
    · rw [htext]
      exact isNormalizedStr_jsNormalizeWs _
  refine ⟨?_, ?_, ?_⟩
  · intro langOption responseData r h p hp
    obtain ⟨segs, -, hparts, -, -, -, -, -⟩ := getTranscript_ok_spec _ _ _ h
    rw [hparts] at hp
    obtain ⟨seg, -, hseg⟩ := List.mem_filterMap.mp hp
    exact hdur seg p hseg
  · intro segment p renderer startMsStr startMs h hr hs hp
    obtain ⟨renderer', startMsStr', endMsStr', runs, startMs', endMs',
      hr', hs', -, -, hps', -, -, hstart, -, -, -⟩ := extractPart_spec segment p h
    rw [hr'] at hr
    obtain rfl := Option.some.inj hr
    rw [hs'] at hs
    obtain rfl := Option.some.inj hs
    rw [hps'] at hp
    obtain rfl := Option.some.inj hp
    refine ⟨hstart, fun hnn => ?_⟩
    rw [hstart]
    exact div_nonneg (by exact_mod_cast hnn) (by norm_num)
  · intro segment p renderer startMsStr endMsStr startMs endMs h hr hs he hps hpe
    obtain ⟨renderer', startMsStr', endMsStr', runs, startMs', endMs',
      hr', hs', he', -, hps', hpe', hle, -, hdur', -, -⟩ := extractPart_spec segment p h
    rw [hr'] at hr
    obtain rfl := Option.some.inj hr
    rw [hs'] at hs
    obtain rfl := Option.some.inj hs
    rw [he'] at he
    obtain rfl := Option.some.inj he
    rw [hps'] at hps
    obtain rfl := Option.some.inj hps
    rw [hpe'] at hpe
    obtain rfl := Option.some.inj hpe
    exact ⟨hdur', hle⟩

/-- Witness for the amended C6 at a concrete accepted segment. -/
theorem C6_amended_witness :
    getTranscript sampleLangOption (mkResponse (some [sampleSegment]) none) =
      .ok sampleResult ∧
    samplePart ∈ sampleResult.parts ∧
    (0 ≤ samplePart.duration ∧ samplePart.text ≠ "" ∧
     isNormalizedStr samplePart.text = true) :=
  ⟨rfl, List.mem_singleton.mpr rfl,
    C6_amended_segment_invariants.1 sampleLangOption
      (mkResponse (some [sampleSegment]) none) sampleResult rfl
      samplePart (List.mem_singleton.mpr rfl)⟩

/-! ### C8 -/

/-- Claim C8: when the response lacks the nested segment list, the fetcher
fails with the not-found-class NoTranscriptFound error exactly when the
transcript-panel engagement target identifier is present, and otherwise
fails with the ParseError, a server-side (status 500) error distinct from
not-found (status 404).  (The `console.warn` of the raw payload on the
ParseError path is an unmodelled side effect.) -/
theorem C8_missing_segments_error_classification
    (langOption : LangOption) (responseData : ResponseData)
    (h : getInitialSegments responseData = none) :
    (getTranscript langOption responseData =
        .error (noTranscriptFoundError langOption.language) ↔
      hasTranscriptPanelTarget responseData = true) ∧
    (hasTranscriptPanelTarget responseData = false →
      getTranscript langOption responseData = .error parseStructureError) ∧
    (noTranscriptFoundError langOption.language).status = 404 ∧
    parseStructureError.status = 500 ∧
    noTranscriptFoundError langOption.language ≠ parseStructureError := by
  have hpe : hasTranscriptPanelTarget responseData = false →
      getTranscript langOption responseData = .error parseStructureError := by
    intro ht
    simp [getTranscript, h, ht]
  have hne : noTranscriptFoundError langOption.language ≠ parseStructureError := by
    intro he
    have := congrArg TranscriptError.status he
    simp [noTranscriptFoundError, parseStructureError] at this
  refine ⟨⟨?_, ?_⟩, hpe, rfl, rfl, hne⟩
  · intro he
    by_contra hnt
    rw [Bool.not_eq_true] at hnt
    rw [hpe hnt] at he
    exact hne (Except.error.inj he).symm
  · intro ht
    simp [getTranscript, h, ht]

/-- Witness for C8: a response carrying the sentinel target id but no
segment list yields the not-found error. -/
theorem C8_witness :
    getInitialSegments (mkResponse none
        (some "engagement-panel-searchable-transcript")) = none ∧
    hasTranscriptPanelTarget (mkResponse none
        (some "engagement-panel-searchable-transcript")) = true ∧
    getTranscript sampleLangOption (mkResponse none
        (some "engagement-panel-searchable-transcript")) =
      .error (noTranscriptFoundError "en") :=
  ⟨rfl, rfl,
    (C8_missing_segments_error_classification sampleLangOption
      (mkResponse none (some "engagement-panel-searchable-transcript"))
      rfl).1.mpr rfl⟩

/-! ### C3 -/

/-- Claim C3: the identifier resolver is the identity on every string matching
`[A-Za-z0-9_-]{11}`; for each known URL shape (standard watch link, short
link, embed link, shorts link) embedding `dQw4w9WgXcQ` it returns
`"dQw4w9WgXcQ"`; and for inputs matching no pattern it returns `none`
(JavaScript `null`) rather than throwing. -/
theorem C3_extractVideoId_resolution :
    (∀ s : String, isVideoIdToken s = true → extractVideoId s = some s) ∧
    extractVideoId "https://www.youtube.com/watch?v=dQw4w9WgXcQ" = some "dQw4w9WgXcQ" ∧
    extractVideoId "https://youtu.be/dQw4w9WgXcQ" = some "dQw4w9WgXcQ" ∧
    extractVideoId "https://www.youtube.com/embed/dQw4w9WgXcQ" = some "dQw4w9WgXcQ" ∧
    extractVideoId "https://www.youtube.com/shorts/dQw4w9WgXcQ" = some "dQw4w9WgXcQ" ∧
    extractVideoId "not a url" = none := by
  refine ⟨?_, by decide, by decide, by decide, by decide, by decide⟩
  intro s h
  have hne : s ≠ "" := by
    intro he
    subst he
    exact absurd h (by decide)
  simp [extractVideoId, hne, h]

/-- Witness for C3's universally quantified clause at a concrete token. -/
theorem C3_witness :
    isVideoIdToken "dQw4w9WgXcQ" = true ∧
    extractVideoId "dQw4w9WgXcQ" = some "dQw4w9WgXcQ" :=
  ⟨by decide, C3_extractVideoId_resolution.1 "dQw4w9WgXcQ" (by decide)⟩

/-! ### C4 -/

/-- The number of invocations the retry loop makes is at most
`remaining + 1`. -/
theorem retryGo_calls_le (fn : Nat → Except ε α) (initialDelay attempt remaining : Nat) :
    (retryGo fn initialDelay attempt remaining).calls ≤ remaining + 1 := by
  induction remaining generalizing attempt with
  | zero =>
    unfold retryGo
    cases fn attempt <;> simp
  | succ n ih =>
    unfold retryGo
    cases fn attempt with
    | ok v => simp
    | error e =>
      simp only
      have := ih (attempt + 1)
      omega

/-- Claim C4: with default parameters the retry executor makes at most 4 total
attempts; any non-throwing return of the operation (including a "no result"
sentinel value, which is just an `Except.ok` payload) is returned
immediately with no sleep; an operation that fails twice and then succeeds
returns the success value after sleeping 1000ms then 2000ms; and when all
four attempts fail the last failure is re-raised after only the three
inter-attempt sleeps 1000ms, 2000ms, 4000ms (none after the final
attempt). -/
theorem C4_retry_backoff_behaviour (fn : Nat → Except ε α) (v : α) (es : Nat → ε) :
    (retryWithBackoff fn).calls ≤ 4 ∧
    (fn 0 = .ok v →
      retryWithBackoff fn = { result := .ok v, delays := [], calls := 1 }) ∧
    (fn 0 = .error (es 0) → fn 1 = .error (es 1) → fn 2 = .ok v →
      retryWithBackoff fn = { result := .ok v, delays := [1000, 2000], calls := 3 }) ∧
    ((∀ i, i ≤ 3 → fn i = .error (es i)) →
      retryWithBackoff fn =
        { result := .error (es 3), delays := [1000, 2000, 4000], calls := 4 }) := by
  refine ⟨retryGo_calls_le fn 1000 0 3, ?_, ?_, ?_⟩
  · intro h0
    unfold retryWithBackoff retryGo
    rw [h0]
  · intro h0 h1 h2
    unfold retryWithBackoff retryGo
    rw [h0]
    simp only
    unfold retryGo
    rw [h1]
    simp only
    unfold retryGo
    rw [h2]
    norm_num
  · intro hall
    unfold retryWithBackoff retryGo
    rw [hall 0 (by omega)]
    simp only
    unfold retryGo
    rw [hall 1 (by omega)]
    simp only
    unfold retryGo
    rw [hall 2 (by omega)]
    simp only
    unfold retryGo
    rw [hall 3 (by omega)]
    norm_num

/-- Witness for C4: an operation failing twice then succeeding, under the
default parameters. -/
theorem C4_witness :
    (fun n => if n < 2 then (Except.error "boom" : Except String Nat)
              else Except.ok 42) 0 = Except.error "boom" ∧
    (fun n => if n < 2 then (Except.error "boom" : Except String Nat)
              else Except.ok 42) 1 = Except.error "boom" ∧
    (fun n => if n < 2 then (Except.error "boom" : Except String Nat)
              else Except.ok 42) 2 = Except.ok 42 ∧
    retryWithBackoff (fun n => if n < 2 then (Except.error "boom" : Except String Nat)
              else Except.ok 42) =
      { result := Except.ok 42, delays := [1000, 2000], calls := 3 } :=
  ⟨rfl, rfl, rfl,
    (C4_retry_backoff_behaviour
      (fun n => if n < 2 then (Except.error "boom" : Except String Nat) else Except.ok 42)
      42 (fun _ => "boom")).2.2.1 rfl rfl rfl⟩

/-! ### C5 -/

/-- A comparator determined by a one-place flag — the shape of both
comparators in the source (`x.P ? -1 : y.P ? 1 : 0`). -/
def cmpOfFlag (f : α → Bool) (x y : α) : Int :=
  if f x then -1 else if f y then 1 else 0

theorem bisGo_allNeg_aux (cmp : α → α → Int) (pivot : α) (l : List α)
    (h : ∀ y, cmp pivot y < 0) (fuel : Nat) :
    ∀ left right, right - left ≤ fuel → bisGo cmp pivot l left right = left := by
  induction fuel with
  | zero =>
    intro left right hle
    unfold bisGo
    rw [dif_neg (by omega)]
  | succ n ih =>
    intro left right hle
    unfold bisGo
    by_cases hlr : left < right
    · rw [dif_pos hlr, if_pos (h _)]
      exact ih left ((left + right) / 2) (by omega)
    · rw [dif_neg hlr]

/-- When the pivot compares below everything, V8's binary search inserts at
the very front. -/
theorem bisGo_allNeg (cmp : α → α → Int) (pivot : α) (l : List α)
    (h : ∀ y, cmp pivot y < 0) (left right : Nat) :
    bisGo cmp pivot l left right = left :=
  bisGo_allNeg_aux cmp pivot l h (right - left) left right le_rfl

theorem bisGo_neverNeg_aux (cmp : α → α → Int) (pivot : α) (l : List α)
    (h : ∀ y, ¬ cmp pivot y < 0) (fuel : Nat) :
    ∀ left right, left ≤ right → right - left ≤ fuel →
      bisGo cmp pivot l left right = right := by
  induction fuel with
  | zero =>
    intro left right hlr hle
    unfold bisGo
    rw [dif_neg (by omega)]
    omega
  | succ n ih =>
    intro left right hlr hle
    unfold bisGo
    by_cases hlt : left < right
    · rw [dif_pos hlt, if_neg (h _)]
      exact ih ((left + right) / 2 + 1) right (by omega) (by omega)
    · rw [dif_neg hlt]
      omega

/-- When the pivot never compares below an element, V8's binary search
inserts at the very end. -/
theorem bisGo_neverNeg (cmp : α → α → Int) (pivot : α) (l : List α)
    (h : ∀ y, ¬ cmp pivot y < 0) (left right : Nat) (hlr : left ≤ right) :
    bisGo cmp pivot l left right = right :=
  bisGo_neverNeg_aux cmp pivot l h (right - left) left right hlr le_rfl

theorem insertAt_zero (l : List α) (x : α) : insertAt l 0 x = x :: l := rfl

theorem insertAt_length (l : List α) (x : α) : insertAt l l.length x = l ++ [x] := by
  unfold insertAt
  rw [List.take_length, List.drop_length]

/-- One step of the insertion sort under a flag comparator: a flagged pivot
goes to the front, an unflagged one to the back. -/
theorem jsArraySort_step (f : α → Bool) (acc : List α) (x : α) :
    insertAt acc (bisGo (cmpOfFlag f) x acc 0 acc.length) x =
      if f x then x :: acc else acc ++ [x] := by
  cases hx : f x with
  | true =>
    rw [bisGo_allNeg _ _ _ (fun y => by simp [cmpOfFlag, hx]), insertAt_zero]
    simp
  | false =>
    rw [bisGo_neverNeg _ _ _ (fun y => by simp [cmpOfFlag, hx]; split <;> omega)
      0 acc.length (Nat.zero_le _), insertAt_length]
    simp

theorem jsArraySort_flag_aux (f : α → Bool) (l : List α) :
    ∀ revved keep, List.foldl
        (fun acc x => insertAt acc (bisGo (cmpOfFlag f) x acc 0 acc.length) x)
        (revved.reverse ++ keep) l =
      (revved ++ l.filter f).reverse ++ (keep ++ l.filter (fun x => !f x)) := by
  induction l with
  | nil => intro revved keep; simp
  | cons x t ih =>
    intro revved keep
    rw [List.foldl_cons, jsArraySort_step]
    cases hx : f x with
    | true =>
      have hstep : x :: (revved.reverse ++ keep) = (revved ++ [x]).reverse ++ keep := by
        simp
      rw [if_pos rfl, hstep, ih (revved ++ [x]) keep]
      simp [List.filter_cons, hx]
    | false =>
      have hstep : (revved.reverse ++ keep) ++ [x] = revved.reverse ++ (keep ++ [x]) := by
        simp
      rw [if_neg (by simp), hstep, ih revved (keep ++ [x])]
      simp [List.filter_cons, hx]

/-- Closed form of V8's insertion sort under a flag comparator: flagged
elements come first in reverse order, unflagged ones keep their order. -/
theorem jsArraySort_flag (f : α → Bool) (l : List α) :
    jsArraySort (cmpOfFlag f) l = (l.filter f).reverse ++ l.filter (fun x => !f x) := by
  have := jsArraySort_flag_aux f l [] []
  simpa [jsArraySort] using this

/-- Claim C5: the two-pass sort places every name that is exactly `"English"`
first (in original order), then the other names containing `"English"`
(reversed by the inconsistent comparator — a single such name, as in the
concrete example, is unaffected), then the remaining names in their
original order; in particular, for
`["Spanish", "English", "English (auto-generated)"]` it produces exactly
`["English", "English (auto-generated)", "Spanish"]`. -/
theorem C5_language_sort_order :
    (∀ l : List String,
      sortLanguageNames l =
        l.filter (fun x => x == "English") ++
        (l.filter (fun x => !(x == "English") && strIncludes x "English")).reverse ++
        l.filter (fun x => !strIncludes x "English")) ∧
    sortLanguageNames ["Spanish", "English", "English (auto-generated)"] =
      ["English", "English (auto-generated)", "Spanish"] := by
  have hgen : ∀ l : List String,
      sortLanguageNames l =
        l.filter (fun x => x == "English") ++
        (l.filter (fun x => !(x == "English") && strIncludes x "English")).reverse ++
        l.filter (fun x => !strIncludes x "English") := by
    intro l
    have hec : ∀ x : String, (x == "English") = true → strIncludes x "English" = true := by
      intro x hx
      have hxe : x = "English" := eq_of_beq hx
      subst hxe
      decide
    simp only [sortLanguageNames]
    rw [show (fun x y => if strIncludes x "English" then (-1 : Int)
          else if strIncludes y "English" then 1 else 0) =
        cmpOfFlag (fun x => strIncludes x "English") from rfl]
    rw [show (fun x y => if x == "English" then (-1 : Int)
          else if y == "English" then 1 else 0) =
        cmpOfFlag (fun x => x == "English") from rfl]
    rw [jsArraySort_flag, jsArraySort_flag]
    have hA : List.filter (fun x => x == "English")
          ((List.filter (fun x => strIncludes x "English") l).reverse ++
            List.filter (fun x => !strIncludes x "English") l) =
        (List.filter (fun x => x == "English") l).reverse := by
      rw [List.filter_append, List.filter_reverse, List.filter_filter, List.filter_filter]
      have h1 : List.filter (fun a => (a == "English") && strIncludes a "English") l =
          List.filter (fun x => x == "English") l :=
        List.filter_congr (fun x _ => by
          cases hx : (x == "English") with
          | true => simp [hec x hx]
          | false => simp)
      have h2 : List.filter (fun a => (a == "English") && !strIncludes a "English") l = [] := by
        rw [List.filter_congr (q := fun _ => false) (fun x _ => by
          cases hx : (x == "English") with
          | true => simp [hec x hx]
          | false => simp)]
        exact List.filter_false l
      rw [h1, h2, List.append_nil]
    have hB : List.filter (fun x => !(x == "English"))
          ((List.filter (fun x => strIncludes x "English") l).reverse ++
            List.filter (fun x => !strIncludes x "English") l) =
        (List.filter (fun a => !(a == "English") && strIncludes a "English") l).reverse ++
          List.filter (fun x => !strIncludes x "English") l := by
      rw [List.filter_append, List.filter_reverse, List.filter_filter, List.filter_filter]
      have h3 : List.filter (fun a => !(a == "English") && !strIncludes a "English") l =
          List.filter (fun x => !strIncludes x "English") l :=
        List.filter_congr (fun x _ => by
          cases hc : strIncludes x "English" with
          | true => simp
          | false =>
            have hxe : (x == "English") = false := by
              cases hx : (x == "English") with
              | true => rw [hec x hx] at hc; cases hc
              | false => rfl
            simp [hxe])
      rw [h3]
    rw [hA, hB, List.reverse_reverse, ← List.append_assoc]
  refine ⟨hgen, ?_⟩
  rw [hgen]
  decide


/-! ### C7 -/

/-- Claim C7, counterexample: the outer blob built by the encoder carries
four single-byte boolean-like flag fields, of which three (tags 0x18,
0x30, 0x38, each with value 1) are fixed and one (tag 0x40) is set from the
`lastFlag` argument — not the "two fixed boolean-like flag bytes" the claim
describes.  Shown at the concrete input the worker itself uses
(video `dQw4w9WgXcQ`, kind `asr`, language `en`). -/
theorem C7_counterexample :
    (outerTokenFields "dQw4w9WgXcQ"
        (btoa (encodePBFields (innerTokenFields "asr" "en"))) true).countP isFlagField = 4 ∧
    ¬ ((outerTokenFields "dQw4w9WgXcQ"
        (btoa (encodePBFields (innerTokenFields "asr" "en"))) true).countP isFlagField = 2) ∧
    (outerTokenFields "dQw4w9WgXcQ"
        (btoa (encodePBFields (innerTokenFields "asr" "en"))) true).filter isFlagField =
      [.varintByte 0x18 1, .varintByte 0x30 1, .varintByte 0x38 1, .varintByte 0x40 1] ∧
    (outerTokenFields "dQw4w9WgXcQ"
        (btoa (encodePBFields (innerTokenFields "asr" "en"))) false).filter isFlagField =
      [.varintByte 0x18 1, .varintByte 0x30 1, .varintByte 0x38 1, .varintByte 0x40 0] := by
  refine ⟨by decide, by decide, by decide, by decide⟩

/-- Claim C7, amended: each length-delimited field is one tag byte, one length
byte equal to the value's byte length, then the value bytes verbatim; the
tag bytes encode field number and the length-delimited wire type 2; the
inner blob holds `{kind, languageCode}` plus a terminating empty field and
is base64-encoded into the outer blob, which additionally carries the video
identifier, the fixed panel-name literal, three fixed boolean-like flag
fields and a fourth flag byte set from the `lastFlag` argument; the final
output is the outer blob base64-encoded then percent-encoded. -/
theorem C7_amended_token_structure (videoId source lang : String) (lastFlag : Bool) :
    buildTranscriptToken videoId source lang lastFlag =
      encodeURIComponent (btoa (encodePBFields
        (outerTokenFields videoId
          (btoa (encodePBFields (innerTokenFields source lang))) lastFlag))) ∧
    (∀ (tag : Nat) (value : List Nat),
      encodePBField (.lenDelim tag value) = tag :: value.length :: value) ∧
    (0x0A = 1 * 8 + 2 ∧ 0x12 = 2 * 8 + 2 ∧ 0x1A = 3 * 8 + 2 ∧ 0x2A = 5 * 8 + 2) ∧
    (outerTokenFields videoId
        (btoa (encodePBFields (innerTokenFields source lang))) lastFlag).filter isFlagField =
      [.varintByte 0x18 0x01, .varintByte 0x30 0x01, .varintByte 0x38 0x01,
       .varintByte 0x40 (if lastFlag then 1 else 0)] := by
  refine ⟨?_, fun tag value => rfl, by decide, rfl⟩
  simp [buildTranscriptToken, encodePBFields, encodePBField, innerTokenFields,
    outerTokenFields, List.append_assoc]

/-! ### C9 -/

/-- Claim C9: for both endpoints a failing cache read never fails the request:
the handler's response and compute-invocation trace are identical to those
of a cache miss (in particular the cache error value never influences the
response), and on an otherwise valid request the underlying compute
operation is invoked. -/
theorem C9_cache_failure_degrades_to_miss :
    (∀ (hasKV : Bool) (body : Except String RequestBody) (e : String)
        (fetch : String → LangOption → FetchOutcome TranscriptResult),
      transcriptHandler hasKV body (.failure e) fetch =
        transcriptHandler hasKV body .miss fetch) ∧
    (∀ (hasKV : Bool) (body : Except String RequestBody) (e : String)
        (fetchLanguages : String → FetchOutcome Json),
      languagesHandler hasKV body (.failure e) fetchLanguages =
        languagesHandler hasKV body .miss fetchLanguages) ∧
    (∀ (b : RequestBody) (e : String)
        (fetch : String → LangOption → FetchOutcome TranscriptResult) (videoId : String),
      jsTruthy (jsOrOpt b.videoUrl b.videoId) = true →
      extractVideoId ((jsOrOpt b.videoUrl b.videoId).getD "") = some videoId →
      (transcriptHandler true (.ok b) (.failure e) fetch).2 =
        some (videoId,
          { languageCode := jsOrDefault b.language "en",
            kind := jsOrDefault b.kind "asr",
            language := jsOrDefault b.language "en" })) ∧
    (∀ (b : RequestBody) (e : String)
        (fetchLanguages : String → FetchOutcome Json) (videoId : String),
      jsTruthy (jsOrOpt b.videoUrl b.videoId) = true →
      extractVideoId ((jsOrOpt b.videoUrl b.videoId).getD "") = some videoId →
      (languagesHandler true (.ok b) (.failure e) fetchLanguages).2 = some videoId) := by
  refine ⟨?_, ?_, ?_, ?_⟩
  · intro hasKV body e fetch
    unfold transcriptHandler
    cases hasKV with
    | false => rfl
    | true =>
      cases body with
      | error m => rfl
      | ok b =>
        by_cases hv : jsTruthy (jsOrOpt b.videoUrl b.videoId) <;> simp only [hv]
  · intro hasKV body e fetchLanguages
    unfold languagesHandler
    cases hasKV with
    | false => rfl
    | true =>
      cases body with
      | error m => rfl
      | ok b =>
        by_cases hv : jsTruthy (jsOrOpt b.videoUrl b.videoId) <;> simp only [hv]
  · intro b e fetch videoId hv hx
    unfold transcriptHandler
    simp only [hv, hx]
    cases fetch videoId
        { languageCode := jsOrDefault b.language "en",
          kind := jsOrDefault b.kind "asr",
          language := jsOrDefault b.language "en" } <;> rfl
  · intro b e fetchLanguages videoId hv hx
    unfold languagesHandler
    simp only [hv, hx]
    cases fetchLanguages videoId <;> rfl

/-- Witness for C9 at a concrete valid request with a failing cache read. -/
theorem C9_witness :
    jsTruthy (jsOrOpt (some "dQw4w9WgXcQ") none) = true ∧
    extractVideoId ((jsOrOpt (some "dQw4w9WgXcQ") none).getD "") = some "dQw4w9WgXcQ" ∧
    (transcriptHandler true
        (.ok { videoUrl := some "dQw4w9WgXcQ", videoId := none,
               language := none, kind := none })
        (.failure "kv down") (fun _ _ => .genericFailure "net")).2 =
      some ("dQw4w9WgXcQ",
        { languageCode := "en", kind := "asr", language := "en" }) :=
  ⟨by decide, by decide,
    C9_cache_failure_degrades_to_miss.2.2.1
      { videoUrl := some "dQw4w9WgXcQ", videoId := none, language := none, kind := none }
      "kv down" (fun _ _ => .genericFailure "net") "dQw4w9WgXcQ" (by decide) (by decide)⟩

/-! ### C10 -/

/-- Claim C10: whenever the `/transcript` handler reaches the fetch (cache
miss or failed cache read), the language option it passes to the fetcher is
built directly from the request body — `languageCode` and the display-name
`language` both set to the requested language (default `"en"`), `kind` to
the requested kind (default `"asr"`) — with no caption discovery involved;
and the fetcher echoes those three fields verbatim in the returned
`TranscriptResult`. -/
theorem C10_language_option_passthrough :
    (∀ (b : RequestBody) (cacheRead : CacheReadOutcome)
        (fetch : String → LangOption → FetchOutcome TranscriptResult) (videoId : String),
      (cacheRead = .miss ∨ ∃ e, cacheRead = .failure e) →
      jsTruthy (jsOrOpt b.videoUrl b.videoId) = true →
      extractVideoId ((jsOrOpt b.videoUrl b.videoId).getD "") = some videoId →
      (transcriptHandler true (.ok b) cacheRead fetch).2 =
        some (videoId,
          { languageCode := jsOrDefault b.language "en",
            kind := jsOrDefault b.kind "asr",
            language := jsOrDefault b.language "en" })) ∧
    (∀ (langOption : LangOption) (responseData : ResponseData) (r : TranscriptResult),
      getTranscript langOption responseData = .ok r →
      r.languageCode = langOption.languageCode ∧
      r.kind = langOption.kind ∧
      r.language = langOption.language) := by
  constructor
  · intro b cacheRead fetch videoId hcache hv hx
    have hgo : ∀ cr : CacheReadOutcome, (cr = .miss ∨ ∃ e, cr = .failure e) →
        (transcriptHandler true (.ok b) cr fetch).2 =
          some (videoId,
            { languageCode := jsOrDefault b.language "en",
              kind := jsOrDefault b.kind "asr",
              language := jsOrDefault b.language "en" }) := by
      intro cr hcr
      unfold transcriptHandler
      simp only [hv, hx]
      rcases hcr with rfl | ⟨e, rfl⟩ <;>
        cases fetch videoId
            { languageCode := jsOrDefault b.language "en",
              kind := jsOrDefault b.kind "asr",
              language := jsOrDefault b.language "en" } <;> rfl
    exact hgo cacheRead hcache
  · intro langOption responseData r h
    obtain ⟨segs, -, -, -, -, h1, h2, h3⟩ := getTranscript_ok_spec _ _ _ h
    exact ⟨h1, h2, h3⟩

/-- Witness for C10 at a concrete request body with defaults, on a cache
miss. -/
theorem C10_witness :
    jsTruthy (jsOrOpt (some "dQw4w9WgXcQ") none) = true ∧
    extractVideoId ((jsOrOpt (some "dQw4w9WgXcQ") none).getD "") = some "dQw4w9WgXcQ" ∧
    (transcriptHandler true
        (.ok { videoUrl := some "dQw4w9WgXcQ", videoId := none,
               language := none, kind := none })
        .miss (fun _ _ => .genericFailure "net")).2 =
      some ("dQw4w9WgXcQ",
        { languageCode := "en", kind := "asr", language := "en" }) :=
  ⟨by decide, by decide,
    C10_language_option_passthrough.1
      { videoUrl := some "dQw4w9WgXcQ", videoId := none, language := none, kind := none }
      .miss (fun _ _ => .genericFailure "net") "dQw4w9WgXcQ" (.inl rfl)
      (by decide) (by decide)⟩
